import Mathlib

/-!
Verification of the gold DCA simulator (dca_simulation.py, monte_carlo_dca.py,
volatility_analysis.py) against its specification.

Numeric values are embedded as rationals. The library functions np.exp and the
square root inside pandas std are abstracted as explicit function parameters,
since only their input wiring (and, for positivity claims, their sign) matters
to the claims. IEEE division producing NaN or infinity (division by a zero
denominator in unguarded code paths) is modelled by Option, none standing for
the non-finite float result.
-/

namespace SimulateurDcaOr

/-- One simulated price path, from monte_carlo_dca.py, generer_trajectoires_prix:
prix[0] = prix_initial and prix[t] = prix[t-1] * exp((drift - 0.5*vol^2) + vol*choc (t-1)),
where choc k is the k-th standard normal shock drawn for this trajectory
(chocs_aleatoires column k) and e abstracts np.exp. -/
def prixSimule (e : ℚ → ℚ) (drift vol prix0 : ℚ) (choc : ℕ → ℚ) : ℕ → ℚ
  | 0 => prix0
  | t + 1 => prixSimule e drift vol prix0 choc t * e ((drift - 0.5 * vol ^ 2) + vol * choc t)

/-- The trajectory matrix of monte_carlo_dca.py, generer_trajectoires_prix:
nb rows (one per simulation), each row listing the n per-period prices.
choc i k is the k-th shock drawn for trajectory i. -/
def genererTrajectoiresPrix (e : ℚ → ℚ) (drift vol prix0 : ℚ) (nb n : ℕ)
    (choc : ℕ → ℕ → ℚ) : List (List ℚ) :=
  (List.range nb).map (fun i => (List.range n).map (prixSimule e drift vol prix0 (choc i)))

/-- Entry (i, t) of a trajectory matrix (0 outside the bounds). -/
def entree (m : List (List ℚ)) (i t : ℕ) : ℚ :=
  ((m.getD i []).getD t 0)

lemma length_genererTrajectoiresPrix (e : ℚ → ℚ) (drift vol prix0 : ℚ) (nb n : ℕ)
    (choc : ℕ → ℕ → ℚ) : (genererTrajectoiresPrix e drift vol prix0 nb n choc).length = nb := by
  simp [genererTrajectoiresPrix]

lemma row_genererTrajectoiresPrix (e : ℚ → ℚ) (drift vol prix0 : ℚ) (nb n : ℕ)
    (choc : ℕ → ℕ → ℚ) {i : ℕ} (hi : i < nb) :
    (genererTrajectoiresPrix e drift vol prix0 nb n choc).getD i []
      = (List.range n).map (prixSimule e drift vol prix0 (choc i)) := by
  simp [genererTrajectoiresPrix, List.getD_eq_getElem?_getD, List.getElem?_map,
    List.getElem?_range, hi]

lemma entree_genererTrajectoiresPrix (e : ℚ → ℚ) (drift vol prix0 : ℚ) (nb n : ℕ)
    (choc : ℕ → ℕ → ℚ) {i t : ℕ} (hi : i < nb) (ht : t < n) :
    entree (genererTrajectoiresPrix e drift vol prix0 nb n choc) i t
      = prixSimule e drift vol prix0 (choc i) t := by
  rw [entree, row_genererTrajectoiresPrix e drift vol prix0 nb n choc hi]
  simp [List.getD_eq_getElem?_getD, List.getElem?_map, List.getElem?_range, ht]

/-- C1: the generated matrix has nb rows of n prices each, period 0 of every
trajectory equals the initial price, each later period multiplies the previous
price by exp((drift - 0.5*vol^2) + vol*shock), where the shock used at period t
is draw t-1 of that trajectory, and for n = 1 the matrix is the initial price
replicated once per trajectory with no shock consumed. -/
theorem generer_trajectoires_prix_spec (e : ℚ → ℚ) (drift vol prix0 : ℚ) (nb n : ℕ)
    (choc : ℕ → ℕ → ℚ) (hn : 1 ≤ n) :
    (genererTrajectoiresPrix e drift vol prix0 nb n choc).length = nb ∧
    (∀ row ∈ genererTrajectoiresPrix e drift vol prix0 nb n choc, row.length = n) ∧
    (∀ i, i < nb → entree (genererTrajectoiresPrix e drift vol prix0 nb n choc) i 0 = prix0) ∧
    (∀ i t, i < nb → 1 ≤ t → t < n →
      entree (genererTrajectoiresPrix e drift vol prix0 nb n choc) i t
        = entree (genererTrajectoiresPrix e drift vol prix0 nb n choc) i (t - 1)
            * e ((drift - 0.5 * vol ^ 2) + vol * choc i (t - 1))) ∧
    (n = 1 → genererTrajectoiresPrix e drift vol prix0 nb n choc
        = List.replicate nb [prix0]) := by
  refine ⟨length_genererTrajectoiresPrix e drift vol prix0 nb n choc, ?_, ?_, ?_, ?_⟩
  · intro row hrow
    simp only [genererTrajectoiresPrix, List.mem_map, List.mem_range] at hrow
    obtain ⟨i, _, rfl⟩ := hrow
    simp
  · intro i hi
    rw [entree_genererTrajectoiresPrix e drift vol prix0 nb n choc hi hn]
    rfl
  · intro i t hi ht1 htn
    obtain ⟨s, rfl⟩ : ∃ s, t = s + 1 := ⟨t - 1, (Nat.succ_pred_eq_of_pos ht1).symm⟩
    simp only [Nat.add_sub_cancel]
    rw [entree_genererTrajectoiresPrix e drift vol prix0 nb n choc hi htn,
      entree_genererTrajectoiresPrix e drift vol prix0 nb n choc hi
        (Nat.lt_of_succ_lt htn)]
    rfl
  · rintro rfl
    have h1 : List.range 1 = [0] := rfl
    simp [genererTrajectoiresPrix, h1, prixSimule, List.map_const']

/-- Witness for C1 at a concrete configuration. -/
theorem generer_trajectoires_prix_spec_witness :
    (1 ≤ 3) ∧
    ((genererTrajectoiresPrix (fun x => 1 + x) (1/10) (1/5) 2000 2 3 (fun _ _ => 0)).length = 2 ∧
    (∀ row ∈ genererTrajectoiresPrix (fun x => 1 + x) (1/10) (1/5) 2000 2 3 (fun _ _ => 0),
        row.length = 3) ∧
    (∀ i, i < 2 → entree (genererTrajectoiresPrix (fun x => 1 + x) (1/10) (1/5) 2000 2 3
        (fun _ _ => 0)) i 0 = 2000) ∧
    (∀ i t, i < 2 → 1 ≤ t → t < 3 →
      entree (genererTrajectoiresPrix (fun x => 1 + x) (1/10) (1/5) 2000 2 3 (fun _ _ => 0)) i t
        = entree (genererTrajectoiresPrix (fun x => 1 + x) (1/10) (1/5) 2000 2 3
            (fun _ _ => 0)) i (t - 1)
            * (1 + (((1:ℚ)/10 - 0.5 * ((1:ℚ)/5) ^ 2) + (1/5) * 0))) ∧
    ((3:ℕ) = 1 → genererTrajectoiresPrix (fun x => 1 + x) (1/10) (1/5) 2000 2 3 (fun _ _ => 0)
        = List.replicate 2 [2000])) :=
  ⟨by decide, generer_trajectoires_prix_spec (fun x => 1 + x) (1/10) (1/5) 2000 2 3
    (fun _ _ => 0) (by decide)⟩

/-- C9: positivity of every matrix entry, given a positive initial price and the
positivity of the exponential (np.exp is strictly positive on every real input). -/
theorem trajectoires_strictement_positives (e : ℚ → ℚ) (drift vol prix0 : ℚ) (nb n : ℕ)
    (choc : ℕ → ℕ → ℚ) (hprix : 0 < prix0) (hexp : ∀ x, 0 < e x) :
    ∀ i t, i < nb → t < n →
      0 < entree (genererTrajectoiresPrix e drift vol prix0 nb n choc) i t := by
  intro i t hi ht
  rw [entree_genererTrajectoiresPrix e drift vol prix0 nb n choc hi ht]
  clear ht
  induction t with
  | zero => exact hprix
  | succ s ih => exact mul_pos ih (hexp _)

/-- Witness for C9 at a concrete configuration. -/
theorem trajectoires_strictement_positives_witness :
    ((0:ℚ) < 2000 ∧ ∀ x : ℚ, 0 < (fun _ : ℚ => (3:ℚ)) x) ∧
    ∀ i t, i < 2 → t < 4 →
      0 < entree (genererTrajectoiresPrix (fun _ => 3) 0 1 2000 2 4 (fun _ _ => -7)) i t :=
  ⟨⟨by norm_num, fun _ => by norm_num⟩,
    trajectoires_strictement_positives (fun _ => 3) 0 1 2000 2 4 (fun _ _ => -7)
      (by norm_num) (fun _ => by norm_num)⟩

/-- The observable behavior of calling generer_trajectoires_prix, errors included:
line 63, prix_simules[:, 0] = prix_initial, raises IndexError when the price array
has zero columns (nombre_annees = 0); otherwise the computation always succeeds.
No configuration validation of any kind is performed before this point. -/
def genererTrajectoiresChecked (e : ℚ → ℚ) (drift vol prix0 : ℚ) (nb n : ℕ)
    (choc : ℕ → ℕ → ℚ) : Except String (List (List ℚ)) :=
  if n = 0 then Except.error "IndexError: index 0 is out of bounds for axis 1 with size 0"
  else Except.ok (genererTrajectoiresPrix e drift vol prix0 nb n choc)

/-- C3 counterexample: a configuration with initialPrice = -2 <= 0, volatility
= -1 < 0 and numTrajectories = 0 < 1 does not fail: the generator returns an
(empty) trajectory matrix, with no InvalidConfiguration error surfaced. -/
theorem configuration_invalide_acceptee :
    genererTrajectoiresChecked (fun _ => 1) 0 (-1) (-2) 0 3 (fun _ _ => 0)
      = Except.ok [] := rfl

/-- C3 amended: the code performs no configuration validation. For every
configuration with numPeriods >= 1 the generator succeeds, whatever the sign of
initialPrice, volatility or the trajectory count; numPeriods = 0 raises an
IndexError from the array assignment, not an InvalidConfiguration error. -/
theorem generer_trajectoires_sans_validation (e : ℚ → ℚ) (drift vol prix0 : ℚ) (nb n : ℕ)
    (choc : ℕ → ℕ → ℚ) :
    (1 ≤ n → genererTrajectoiresChecked e drift vol prix0 nb n choc
        = Except.ok (genererTrajectoiresPrix e drift vol prix0 nb n choc)) ∧
    (n = 0 → genererTrajectoiresChecked e drift vol prix0 nb n choc
        = Except.error "IndexError: index 0 is out of bounds for axis 1 with size 0") := by
  constructor
  · intro hn
    have hne : n ≠ 0 := by omega
    simp [genererTrajectoiresChecked, hne]
  · rintro rfl
    rfl

/-- Witness for the amended C3 at a concrete configuration. -/
theorem generer_trajectoires_sans_validation_witness :
    (1 ≤ 2) ∧
    genererTrajectoiresChecked (fun _ => 1) 0 (-1) (-2) 1 2 (fun _ _ => 0)
      = Except.ok (genererTrajectoiresPrix (fun _ => 1) 0 (-1) (-2) 1 2 (fun _ _ => 0)) :=
  ⟨by decide,
    (generer_trajectoires_sans_validation (fun _ => 1) 0 (-1) (-2) 1 2 (fun _ _ => 0)).1
      (by decide)⟩

/-- Draw k consecutive variates from a stateful random source, returning the
draws in order together with the advanced state. Models the single call
np.random.normal(0, 1, (nb_simulations, nombre_annees - 1)), whose entries are
produced row-major from the global generator state. -/
def drawList {S : Type} (draw : S → ℚ × S) : ℕ → S → List ℚ × S
  | 0, s => ([], s)
  | k + 1, s =>
    let d := draw s
    let rest := drawList draw k d.2
    (d.1 :: rest.1, rest.2)

/-- generer_trajectoires_prix with its random source made explicit: the global
generator state is first reset by np.random.seed(42), the shock matrix is drawn
row-major from that state, and the trajectories are computed from the shocks.
The incoming state s0 is the global RNG state before the call; the second
component is the state after the call. -/
def genererTrajectoiresSeeded {S : Type} (seedFn : ℕ → S) (draw : S → ℚ × S)
    (e : ℚ → ℚ) (drift vol prix0 : ℚ) (nb n : ℕ) (s0 : S) : List (List ℚ) × S :=
  let s1 := seedFn 42
  let chocs := drawList draw (nb * (n - 1)) s1
  (genererTrajectoiresPrix e drift vol prix0 nb n
      (fun i k => chocs.1.getD (i * (n - 1) + k) 0),
    chocs.2)

/-- C7: the generator is deterministic: for any random source implementation,
two runs with the same configuration produce identical trajectory matrices,
whatever the incoming generator states, because the seed is fixed (42) and the
state is reset before the draws. -/
theorem generer_trajectoires_deterministe {S : Type} (seedFn : ℕ → S) (draw : S → ℚ × S)
    (e : ℚ → ℚ) (drift vol prix0 : ℚ) (nb n : ℕ) (s₁ s₂ : S) :
    (genererTrajectoiresSeeded seedFn draw e drift vol prix0 nb n s₁).1
      = (genererTrajectoiresSeeded seedFn draw e drift vol prix0 nb n s₂).1 := rfl

/-- One row of the year-by-year results of dca_simulation.py, simuler_dca:
the per-period record lists of the resultats dictionary. -/
structure LigneResultat where
  prix : ℚ
  investissementCumule : ℚ
  oncesAchetees : ℚ
  oncesTotales : ℚ
  valeurPortefeuille : ℚ
  fraisTotaux : ℚ
  profitPerte : ℚ
  rendementPourcent : ℚ
deriving DecidableEq

/-- All-zero record, used as the out-of-bounds default. -/
def ligneZero : LigneResultat :=
  { prix := 0, investissementCumule := 0, oncesAchetees := 0, oncesTotales := 0,
    valeurPortefeuille := 0, fraisTotaux := 0, profitPerte := 0, rendementPourcent := 0 }

/-- The accumulation loop of dca_simulation.py, simuler_dca (lines 80-115),
driven by the list of prices it reads: i is the loop counter, onces and inv the
running unit and contribution totals. Each iteration appends one record built
exactly as in the source: frais_totaux = onces_totales * frais_par_once * (i+1),
valeur nette = brute - frais, profit = nette - investissement cumule,
rendement = profit / investissement * 100 guarded by investissement > 0. -/
def simulerDcaPrixAux (annuel frais : ℚ) : List ℚ → ℕ → ℚ → ℚ → List LigneResultat
  | [], _, _, _ => []
  | p :: ps, i, onces, inv =>
    let invC := inv + annuel
    let oncesAch := annuel / p
    let oncesT := onces + oncesAch
    let valeurBrute := oncesT * p
    let fraisT := oncesT * frais * ((i : ℚ) + 1)
    let valeurNette := valeurBrute - fraisT
    let profit := valeurNette - invC
    let rendement := if 0 < invC then profit / invC * 100 else 0
    { prix := p, investissementCumule := invC, oncesAchetees := oncesAch,
      oncesTotales := oncesT, valeurPortefeuille := valeurNette,
      fraisTotaux := fraisT, profitPerte := profit, rendementPourcent := rendement }
      :: simulerDcaPrixAux annuel frais ps (i + 1) oncesT invC

/-- The DCA accumulation over one trajectory of prices (dca_simulation.py,
simuler_dca, with the year lookups already resolved to the price list). -/
def simulerDcaPrix (prix : List ℚ) (annuel frais : ℚ) : List LigneResultat :=
  simulerDcaPrixAux annuel frais prix 0 0 0

lemma simulerDcaPrixAux_length (annuel frais : ℚ) :
    ∀ (ps : List ℚ) (i : ℕ) (o v : ℚ),
      (simulerDcaPrixAux annuel frais ps i o v).length = ps.length := by
  intro ps
  induction ps with
  | nil => intro i o v; rfl
  | cons p ps ih => intro i o v; simp [simulerDcaPrixAux, ih]

lemma simulerDcaPrix_length (prix : List ℚ) (annuel frais : ℚ) :
    (simulerDcaPrix prix annuel frais).length = prix.length :=
  simulerDcaPrixAux_length annuel frais prix 0 0 0

/-- Characterization of record k of the accumulation loop, for any starting
counter and accumulators. -/
lemma simulerDcaPrixAux_getD (annuel frais : ℚ) :
    ∀ (ps : List ℚ) (i0 : ℕ) (o0 v0 : ℚ) (k : ℕ), k < ps.length →
      ((simulerDcaPrixAux annuel frais ps i0 o0 v0).getD k ligneZero).prix = ps.getD k 0 ∧
      ((simulerDcaPrixAux annuel frais ps i0 o0 v0).getD k ligneZero).oncesAchetees
        = annuel / ps.getD k 0 ∧
      ((simulerDcaPrixAux annuel frais ps i0 o0 v0).getD k ligneZero).investissementCumule
        = v0 + annuel * ((k : ℚ) + 1) ∧
      ((simulerDcaPrixAux annuel frais ps i0 o0 v0).getD k ligneZero).oncesTotales
        = o0 + ((ps.take (k + 1)).map (fun p => annuel / p)).sum ∧
      ((simulerDcaPrixAux annuel frais ps i0 o0 v0).getD k ligneZero).fraisTotaux
        = ((simulerDcaPrixAux annuel frais ps i0 o0 v0).getD k ligneZero).oncesTotales
            * frais * ((i0 : ℚ) + (k : ℚ) + 1) ∧
      ((simulerDcaPrixAux annuel frais ps i0 o0 v0).getD k ligneZero).valeurPortefeuille
        = ((simulerDcaPrixAux annuel frais ps i0 o0 v0).getD k ligneZero).oncesTotales
            * ((simulerDcaPrixAux annuel frais ps i0 o0 v0).getD k ligneZero).prix
          - ((simulerDcaPrixAux annuel frais ps i0 o0 v0).getD k ligneZero).fraisTotaux ∧
      ((simulerDcaPrixAux annuel frais ps i0 o0 v0).getD k ligneZero).profitPerte
        = ((simulerDcaPrixAux annuel frais ps i0 o0 v0).getD k ligneZero).valeurPortefeuille
          - ((simulerDcaPrixAux annuel frais ps i0 o0 v0).getD k ligneZero).investissementCumule ∧
      ((simulerDcaPrixAux annuel frais ps i0 o0 v0).getD k ligneZero).rendementPourcent
        = if 0 < ((simulerDcaPrixAux annuel frais ps i0 o0 v0).getD k
              ligneZero).investissementCumule
          then ((simulerDcaPrixAux annuel frais ps i0 o0 v0).getD k ligneZero).profitPerte
              / ((simulerDcaPrixAux annuel frais ps i0 o0 v0).getD k
                  ligneZero).investissementCumule * 100
          else 0 := by
  intro ps
  induction ps with
  | nil => intro i0 o0 v0 k hk; simp at hk
  | cons p ps ih =>
    intro i0 o0 v0 k hk
    match k with
    | 0 =>
      refine ⟨rfl, rfl, by simp [simulerDcaPrixAux], ?_,
        by simp [simulerDcaPrixAux], by simp [simulerDcaPrixAux],
        rfl, rfl⟩
      simp [simulerDcaPrixAux, List.take_succ_cons]
    | k + 1 =>
      have hk' : k < ps.length := by simpa using hk
      have h := ih (i0 + 1) (o0 + annuel / p) (v0 + annuel) k hk'
      have hstep : (simulerDcaPrixAux annuel frais (p :: ps) i0 o0 v0).getD (k + 1) ligneZero
          = (simulerDcaPrixAux annuel frais ps (i0 + 1) (o0 + annuel / p)
              (v0 + annuel)).getD k ligneZero := by
        simp [simulerDcaPrixAux]
      rw [hstep]
      obtain ⟨h1, h2, h3, h4, h5, h6, h7, h8⟩ := h
      refine ⟨by simpa using h1, by simpa using h2, ?_, ?_, ?_, h6, h7, h8⟩
      · rw [h3]; push_cast; ring
      · rw [h4]; simp [List.take_succ_cons]; ring
      · rw [h5]; push_cast; ring

/-- C2: in the year-by-year accumulation, the recorded cumulative fees at
0-based period k equal the current unit holding times the fee rate times (k+1),
and the recorded net value is holding * price minus that fee. -/
theorem frais_cumules_spec (prix : List ℚ) (annuel frais : ℚ)
    (hp : ∀ p ∈ prix, 0 < p) (ha : 0 < annuel) (hf : 0 ≤ frais) :
    ∀ k, k < prix.length →
      ((simulerDcaPrix prix annuel frais).getD k ligneZero).fraisTotaux
        = ((simulerDcaPrix prix annuel frais).getD k ligneZero).oncesTotales
            * frais * ((k : ℚ) + 1) ∧
      ((simulerDcaPrix prix annuel frais).getD k ligneZero).valeurPortefeuille
        = ((simulerDcaPrix prix annuel frais).getD k ligneZero).oncesTotales * prix.getD k 0
          - ((simulerDcaPrix prix annuel frais).getD k ligneZero).oncesTotales
              * frais * ((k : ℚ) + 1) := by
  intro k hk
  obtain ⟨h1, _, _, _, h5, h6, _, _⟩ := simulerDcaPrixAux_getD annuel frais prix 0 0 0 k hk
  have h5' : ((simulerDcaPrix prix annuel frais).getD k ligneZero).fraisTotaux
      = ((simulerDcaPrix prix annuel frais).getD k ligneZero).oncesTotales
          * frais * ((k : ℚ) + 1) := by
    rw [simulerDcaPrix] at *
    rw [h5]; push_cast; ring
  refine ⟨h5', ?_⟩
  rw [simulerDcaPrix] at *
  rw [h6, h1, ← h5']

/-- Witness for C2 at a concrete trajectory. -/
theorem frais_cumules_spec_witness :
    ((∀ p ∈ [(1 : ℚ), 2], 0 < p) ∧ (0 : ℚ) < 1 ∧ (0 : ℚ) ≤ 3) ∧
    ∀ k, k < [(1 : ℚ), 2].length →
      ((simulerDcaPrix [1, 2] 1 3).getD k ligneZero).fraisTotaux
        = ((simulerDcaPrix [1, 2] 1 3).getD k ligneZero).oncesTotales * 3 * ((k : ℚ) + 1) ∧
      ((simulerDcaPrix [1, 2] 1 3).getD k ligneZero).valeurPortefeuille
        = ((simulerDcaPrix [1, 2] 1 3).getD k ligneZero).oncesTotales * [(1 : ℚ), 2].getD k 0
          - ((simulerDcaPrix [1, 2] 1 3).getD k ligneZero).oncesTotales * 3 * ((k : ℚ) + 1) :=
  ⟨⟨by decide, by decide, by decide⟩,
    frais_cumules_spec [1, 2] 1 3 (by decide) (by decide) (by decide)⟩

/-- The final-only outcome of one Monte Carlo trajectory, from
monte_carlo_dca.py, simuler_dca_monte_carlo (lines 100-130). -/
structure ResultatMC where
  oncesFinales : ℚ
  valeurFinale : ℚ
  profitFinal : ℚ
  rendementFinal : Option ℚ
deriving DecidableEq

/-- The per-trajectory loop of monte_carlo_dca.py, simuler_dca_monte_carlo:
sum the units bought each year, value the holding at the last price, charge
fees once as onces_totales * frais_par_once * nombre_annees, and compute
profit and return against investissement_annuel * nombre_annees. The return
division is unguarded in the source; rendementFinal = none models the
non-finite float (NaN or infinity) that IEEE division by a zero total
investment produces. -/
def simulerTrajectoireMC (prix : List ℚ) (annuel fraisParOnce : ℚ) : ResultatMC :=
  let oncesTotales := (prix.map (fun p => annuel / p)).sum
  let prixFinal := prix.getLastD 0
  let valeurBrute := oncesTotales * prixFinal
  let fraisTotaux := oncesTotales * fraisParOnce * (prix.length : ℚ)
  let valeurFinale := valeurBrute - fraisTotaux
  let investissementTotal := annuel * (prix.length : ℚ)
  let profitFinal := valeurFinale - investissementTotal
  { oncesFinales := oncesTotales, valeurFinale := valeurFinale, profitFinal := profitFinal,
    rendementFinal := if investissementTotal = 0 then none
      else some (profitFinal / investissementTotal * 100) }

/-- C5 counterexample: with contribution 0 on a one-period trajectory the
Monte Carlo variant records no finite return at all (IEEE 0/0, NaN), instead
of the 0 the claim requires: the division-by-zero guard exists only in the
historical simulator. -/
theorem rendement_mc_contribution_nulle :
    (simulerTrajectoireMC [100] 0 25).rendementFinal = none ∧
    (simulerTrajectoireMC [100] 0 25).rendementFinal ≠ some 0 := by
  constructor <;> simp [simulerTrajectoireMC]

/-- C5 amended: the historical accumulation records
returnPct = 100 * profit / cumulativeContribution when the cumulative
contribution is positive and 0 otherwise; the Monte Carlo variant divides
unconditionally, returning 100 * profit / totalInvestment when the total
investment is nonzero and a non-finite float (NaN) when it is zero. -/
theorem rendement_pourcent_spec (prix : List ℚ) (annuel frais : ℚ) :
    (∀ k, k < prix.length →
      ((simulerDcaPrix prix annuel frais).getD k ligneZero).rendementPourcent
        = if 0 < ((simulerDcaPrix prix annuel frais).getD k ligneZero).investissementCumule
          then 100 * ((simulerDcaPrix prix annuel frais).getD k ligneZero).profitPerte
              / ((simulerDcaPrix prix annuel frais).getD k ligneZero).investissementCumule
          else 0) ∧
    (annuel * (prix.length : ℚ) = 0 →
      (simulerTrajectoireMC prix annuel frais).rendementFinal = none) ∧
    (annuel * (prix.length : ℚ) ≠ 0 →
      (simulerTrajectoireMC prix annuel frais).rendementFinal
        = some (100 * (simulerTrajectoireMC prix annuel frais).profitFinal
            / (annuel * (prix.length : ℚ)))) := by
  refine ⟨?_, ?_, ?_⟩
  · intro k hk
    obtain ⟨_, _, _, _, _, _, _, h8⟩ := simulerDcaPrixAux_getD annuel frais prix 0 0 0 k hk
    rw [simulerDcaPrix] at *
    rw [h8]
    split_ifs with h
    · ring
    · rfl
  · intro h
    simp [simulerTrajectoireMC, h]
  · intro h
    simp only [simulerTrajectoireMC, h, if_false]
    congr 1
    ring

/-- Witness for the amended C5 at a concrete trajectory. -/
theorem rendement_pourcent_spec_witness :
    ((0 : ℕ) < [(2 : ℚ), 4].length ∧ (1 : ℚ) * ([(2 : ℚ), 4].length : ℚ) ≠ 0) ∧
    (((simulerDcaPrix [(2 : ℚ), 4] 1 0).getD 0 ligneZero).rendementPourcent
      = if 0 < ((simulerDcaPrix [(2 : ℚ), 4] 1 0).getD 0 ligneZero).investissementCumule
        then 100 * ((simulerDcaPrix [(2 : ℚ), 4] 1 0).getD 0 ligneZero).profitPerte
            / ((simulerDcaPrix [(2 : ℚ), 4] 1 0).getD 0 ligneZero).investissementCumule
        else 0) ∧
    ((simulerTrajectoireMC [(2 : ℚ), 4] 1 0).rendementFinal
      = some (100 * (simulerTrajectoireMC [(2 : ℚ), 4] 1 0).profitFinal
          / (1 * ([(2 : ℚ), 4].length : ℚ)))) :=
  ⟨⟨by simp, by simp⟩,
    (rendement_pourcent_spec [(2 : ℚ), 4] 1 0).1 0 (by simp),
    (rendement_pourcent_spec [(2 : ℚ), 4] 1 0).2.2 (by simp)⟩

lemma getLastD_eq_getD {α : Type} (l : List α) (d : α) :
    l.getLastD d = l.getD (l.length - 1) d := by
  rw [List.getLastD_eq_getLast?, List.getLast?_eq_getElem?, List.getD_eq_getElem?_getD]

/-- C10: on the same trajectory of positive prices, with a positive
contribution and a nonnegative fee rate, the Monte Carlo per-trajectory
accumulation produces exactly the final-period record of the historical
year-by-year recurrence: same final units, net value, profit and return
percentage. -/
theorem monte_carlo_equivaut_historique (prix : List ℚ) (annuel frais : ℚ)
    (hne : prix ≠ []) (hp : ∀ p ∈ prix, 0 < p) (ha : 0 < annuel) (hf : 0 ≤ frais) :
    (simulerTrajectoireMC prix annuel frais).oncesFinales
      = ((simulerDcaPrix prix annuel frais).getLastD ligneZero).oncesTotales ∧
    (simulerTrajectoireMC prix annuel frais).valeurFinale
      = ((simulerDcaPrix prix annuel frais).getLastD ligneZero).valeurPortefeuille ∧
    (simulerTrajectoireMC prix annuel frais).profitFinal
      = ((simulerDcaPrix prix annuel frais).getLastD ligneZero).profitPerte ∧
    (simulerTrajectoireMC prix annuel frais).rendementFinal
      = some (((simulerDcaPrix prix annuel frais).getLastD ligneZero).rendementPourcent) := by
  have hlen : 1 ≤ prix.length := Nat.one_le_iff_ne_zero.mpr (by
    simpa [List.length_eq_zero] using hne)
  have hk : prix.length - 1 < prix.length := by omega
  simp only [simulerDcaPrix]
  have hlast : (simulerDcaPrixAux annuel frais prix 0 0 0).getLastD ligneZero
      = (simulerDcaPrixAux annuel frais prix 0 0 0).getD (prix.length - 1) ligneZero := by
    rw [getLastD_eq_getD, simulerDcaPrixAux_length]
  obtain ⟨h1, _, h3, h4, h5, h6, h7, h8⟩ :=
    simulerDcaPrixAux_getD annuel frais prix 0 0 0 (prix.length - 1) hk
  have hcast : ((prix.length - 1 : ℕ) : ℚ) + 1 = (prix.length : ℚ) := by
    push_cast [hlen]
    ring
  have honces : ((simulerDcaPrixAux annuel frais prix 0 0 0).getD (prix.length - 1)
      ligneZero).oncesTotales = (prix.map (fun p => annuel / p)).sum := by
    rw [h4, Nat.sub_add_cancel hlen, List.take_length]
    ring
  have hprixlast : ((simulerDcaPrixAux annuel frais prix 0 0 0).getD (prix.length - 1)
      ligneZero).prix = prix.getLastD 0 := by
    rw [h1, getLastD_eq_getD]
  have hinv : ((simulerDcaPrixAux annuel frais prix 0 0 0).getD (prix.length - 1)
      ligneZero).investissementCumule = annuel * (prix.length : ℚ) := by
    rw [h3, hcast]
    ring
  have hfrais : ((simulerDcaPrixAux annuel frais prix 0 0 0).getD (prix.length - 1)
      ligneZero).fraisTotaux
      = (prix.map (fun p => annuel / p)).sum * frais * (prix.length : ℚ) := by
    rw [h5, honces]
    rw [show ((0 : ℕ) : ℚ) + ((prix.length - 1 : ℕ) : ℚ) + 1
        = ((prix.length - 1 : ℕ) : ℚ) + 1 by ring, hcast]
  have hval : ((simulerDcaPrixAux annuel frais prix 0 0 0).getD (prix.length - 1)
      ligneZero).valeurPortefeuille
      = (simulerTrajectoireMC prix annuel frais).valeurFinale := by
    rw [h6, honces, hprixlast, hfrais]
    simp [simulerTrajectoireMC]
  have hprofit : ((simulerDcaPrixAux annuel frais prix 0 0 0).getD (prix.length - 1)
      ligneZero).profitPerte = (simulerTrajectoireMC prix annuel frais).profitFinal := by
    rw [h7, hval, hinv]
    simp [simulerTrajectoireMC]
  have hinvpos : 0 < annuel * (prix.length : ℚ) := by
    have : (0 : ℚ) < (prix.length : ℚ) := by
      exact_mod_cast Nat.lt_of_lt_of_le Nat.zero_lt_one hlen
    positivity
  refine ⟨?_, ?_, ?_, ?_⟩
  · rw [hlast, honces]
    rfl
  · rw [hlast, hval]
  · rw [hlast, hprofit]
  · rw [hlast, h8, hinv, if_pos hinvpos, hprofit]
    simp [simulerTrajectoireMC, hinvpos.ne']

/-- Witness for C10 at a concrete trajectory. -/
theorem monte_carlo_equivaut_historique_witness :
    (([(1 : ℚ), 2] ≠ []) ∧ (∀ p ∈ [(1 : ℚ), 2], 0 < p) ∧ (0 : ℚ) < 5 ∧ (0 : ℚ) ≤ 2) ∧
    ((simulerTrajectoireMC [(1 : ℚ), 2] 5 2).oncesFinales
      = ((simulerDcaPrix [(1 : ℚ), 2] 5 2).getLastD ligneZero).oncesTotales ∧
    (simulerTrajectoireMC [(1 : ℚ), 2] 5 2).valeurFinale
      = ((simulerDcaPrix [(1 : ℚ), 2] 5 2).getLastD ligneZero).valeurPortefeuille ∧
    (simulerTrajectoireMC [(1 : ℚ), 2] 5 2).profitFinal
      = ((simulerDcaPrix [(1 : ℚ), 2] 5 2).getLastD ligneZero).profitPerte ∧
    (simulerTrajectoireMC [(1 : ℚ), 2] 5 2).rendementFinal
      = some (((simulerDcaPrix [(1 : ℚ), 2] 5 2).getLastD ligneZero).rendementPourcent)) :=
  ⟨⟨by decide, by decide, by decide, by decide⟩,
    monte_carlo_equivaut_historique [(1 : ℚ), 2] 5 2 (by decide) (by decide)
      (by decide) (by decide)⟩

/-- The errors raised by dca_simulation.py, simuler_dca. valueErrorDebut and
valueErrorFin are the explicit ValueError raises of lines 59-62, naming the
start or end year (the RangeUnavailable errors of the spec); keyError is the
pandas KeyError raised by the df.loc lookup of line 82 when a year inside the
range is absent, also naming the year. -/
inductive DcaErreur where
  | valueErrorDebut (annee : ℤ)
  | valueErrorFin (annee : ℤ)
  | keyError (annee : ℤ)
deriving DecidableEq

/-- Whether an Except value is a success. -/
def estOk {ε α : Type} : Except ε α → Bool
  | Except.ok _ => true
  | Except.error _ => false

lemma estOk_map {ε α β : Type} (g : α → β) (e : Except ε α) :
    estOk (e.map g) = estOk e := by
  cases e <;> rfl

/-- The year loop of dca_simulation.py, simuler_dca (lines 80-115): k years
remain, i is the loop counter (current year = debut + i), onces and inv the
running totals. A missing year aborts the whole run with a KeyError naming it;
otherwise the per-year record is built exactly as in simulerDcaPrixAux. -/
def simulerBoucle (series : ℤ → Option ℚ) (annuel frais : ℚ) (debut : ℤ) :
    ℕ → ℕ → ℚ → ℚ → Except DcaErreur (List LigneResultat)
  | 0, _, _, _ => Except.ok []
  | k + 1, i, onces, inv =>
    match series (debut + (i : ℤ)) with
    | none => Except.error (DcaErreur.keyError (debut + (i : ℤ)))
    | some p =>
      let invC := inv + annuel
      let oncesAch := annuel / p
      let oncesT := onces + oncesAch
      let valeurBrute := oncesT * p
      let fraisT := oncesT * frais * ((i : ℚ) + 1)
      let valeurNette := valeurBrute - fraisT
      let profit := valeurNette - invC
      let rendement := if 0 < invC then profit / invC * 100 else 0
      (simulerBoucle series annuel frais debut k (i + 1) oncesT invC).map
        (fun rest =>
          { prix := p, investissementCumule := invC, oncesAchetees := oncesAch,
            oncesTotales := oncesT, valeurPortefeuille := valeurNette,
            fraisTotaux := fraisT, profitPerte := profit,
            rendementPourcent := rendement } :: rest)

/-- dca_simulation.py, simuler_dca: the up-front availability checks of lines
56-62 (start year, then end year = debut + nombreAnnees - 1, each raising a
ValueError naming that year), followed by the accumulation loop. -/
def simulerDca (series : ℤ → Option ℚ) (annuel : ℚ) (nombreAnnees : ℕ)
    (debut : ℤ) (frais : ℚ) : Except DcaErreur (List LigneResultat) :=
  let fin := debut + (nombreAnnees : ℤ) - 1
  match series debut with
  | none => Except.error (DcaErreur.valueErrorDebut debut)
  | some _ =>
    match series fin with
    | none => Except.error (DcaErreur.valueErrorFin fin)
    | some _ => simulerBoucle series annuel frais debut nombreAnnees 0 0 0

lemma simulerBoucle_ok_iff (series : ℤ → Option ℚ) (annuel frais : ℚ) (debut : ℤ) :
    ∀ (k i : ℕ) (o v : ℚ),
      estOk (simulerBoucle series annuel frais debut k i o v) = true
        ↔ ∀ j : ℕ, j < k → (series (debut + (i : ℤ) + (j : ℤ))).isSome = true := by
  intro k
  induction k with
  | zero => intro i o v; simp [simulerBoucle, estOk]
  | succ k ih =>
    intro i o v
    rw [simulerBoucle]
    match hs : series (debut + (i : ℤ)) with
    | none =>
      simp only [estOk]
      constructor
      · intro h; exact absurd h (by simp)
      · intro h
        have := h 0 (Nat.succ_pos k)
        rw [show debut + (i : ℤ) + ((0 : ℕ) : ℤ) = debut + (i : ℤ) by push_cast; ring, hs]
          at this
        simp at this
    | some p =>
      rw [estOk_map, ih (i + 1)]
      constructor
      · intro h j hj
        match j with
        | 0 =>
          rw [show debut + (i : ℤ) + ((0 : ℕ) : ℤ) = debut + (i : ℤ) by push_cast; ring, hs]
          rfl
        | j + 1 =>
          have := h j (by omega)
          rw [show debut + ((i + 1 : ℕ) : ℤ) + (j : ℤ)
              = debut + (i : ℤ) + ((j + 1 : ℕ) : ℤ) by push_cast; ring] at this
          exact this
      · intro h j hj
        have := h (j + 1) (by omega)
        rw [show debut + (i : ℤ) + ((j + 1 : ℕ) : ℤ)
            = debut + ((i + 1 : ℕ) : ℤ) + (j : ℤ) by push_cast; ring] at this
        exact this

lemma simulerBoucle_premiere_manquante (series : ℤ → Option ℚ) (annuel frais : ℚ)
    (debut : ℤ) :
    ∀ (k i j : ℕ) (o v : ℚ), j < k →
      (∀ m : ℕ, m < j → (series (debut + (i : ℤ) + (m : ℤ))).isSome = true) →
      series (debut + (i : ℤ) + (j : ℤ)) = none →
      simulerBoucle series annuel frais debut k i o v
        = Except.error (DcaErreur.keyError (debut + (i : ℤ) + (j : ℤ))) := by
  intro k
  induction k with
  | zero => intro i j o v hj; omega
  | succ k ih =>
    intro i j o v hj hm hnone
    rw [simulerBoucle]
    match j with
    | 0 =>
      rw [show debut + (i : ℤ) + ((0 : ℕ) : ℤ) = debut + (i : ℤ) by push_cast; ring] at hnone
      rw [hnone]
      simp
    | j + 1 =>
      have h0 := hm 0 (Nat.succ_pos j)
      rw [show debut + (i : ℤ) + ((0 : ℕ) : ℤ) = debut + (i : ℤ) by push_cast; ring] at h0
      obtain ⟨p, hp⟩ := Option.isSome_iff_exists.mp h0
      rw [hp]
      have hrec := ih (i + 1) j (o + annuel / p) (v + annuel) (by omega) ?_ ?_
      · simp only [hrec, Except.map]
        rw [show debut + ((i + 1 : ℕ) : ℤ) + (j : ℤ)
            = debut + (i : ℤ) + ((j + 1 : ℕ) : ℤ) by push_cast; ring]
      · intro m hmj
        have := hm (m + 1) (by omega)
        rw [show debut + (i : ℤ) + ((m + 1 : ℕ) : ℤ)
            = debut + ((i + 1 : ℕ) : ℤ) + (m : ℤ) by push_cast; ring] at this
        exact this
      · rw [show debut + ((i + 1 : ℕ) : ℤ) + (j : ℤ)
            = debut + (i : ℤ) + ((j + 1 : ℕ) : ℤ) by push_cast; ring]
        exact hnone

/-- C4 counterexample: with the series defined at years 2000 and 2002 only,
requesting [2000, 2002] passes both up-front checks (start and end present)
and fails only inside the loop, with a KeyError naming 2001, not with the
up-front ValueError (RangeUnavailable) check the claim describes. -/
theorem annee_interieure_manquante :
    simulerDca (fun y => if y = 2000 ∨ y = 2002 then some (100 : ℚ) else none) 1000 3 2000 0
      = Except.error (DcaErreur.keyError 2001) := by
  rfl

/-- C4 amended: the up-front availability check covers only the first and last
year of the requested range: a missing start year fails with the ValueError
naming it, a missing end year with the ValueError naming it; when both
endpoints are present, a missing interior year fails later, during the loop,
with a KeyError naming the first missing year; the run succeeds exactly when
every year of the range is present, and an error always means no result at
all. -/
theorem simuler_dca_disponibilite (series : ℤ → Option ℚ) (annuel frais : ℚ)
    (debut : ℤ) (n : ℕ) (hn : 1 ≤ n) :
    (estOk (simulerDca series annuel n debut frais) = true
      ↔ ∀ j : ℕ, j < n → (series (debut + (j : ℤ))).isSome = true) ∧
    (series debut = none →
      simulerDca series annuel n debut frais
        = Except.error (DcaErreur.valueErrorDebut debut)) ∧
    ((series debut).isSome = true → series (debut + (n : ℤ) - 1) = none →
      simulerDca series annuel n debut frais
        = Except.error (DcaErreur.valueErrorFin (debut + (n : ℤ) - 1))) ∧
    (∀ j : ℕ, j < n → (series debut).isSome = true →
      (series (debut + (n : ℤ) - 1)).isSome = true →
      (∀ m : ℕ, m < j → (series (debut + (m : ℤ))).isSome = true) →
      series (debut + (j : ℤ)) = none →
      simulerDca series annuel n debut frais
        = Except.error (DcaErreur.keyError (debut + (j : ℤ)))) := by
  refine ⟨?_, ?_, ?_, ?_⟩
  · rw [simulerDca]
    match hd : series debut with
    | none =>
      simp only [estOk]
      constructor
      · intro h; exact absurd h (by simp)
      · intro h
        have := h 0 hn
        rw [show debut + ((0 : ℕ) : ℤ) = debut by push_cast; ring, hd] at this
        simp at this
    | some p0 =>
      match hf : series (debut + (n : ℤ) - 1) with
      | none =>
        simp only [estOk]
        constructor
        · intro h; exact absurd h (by simp)
        · intro h
          have := h (n - 1) (by omega)
          rw [show debut + ((n - 1 : ℕ) : ℤ) = debut + (n : ℤ) - 1 by
            push_cast [hn]; ring, hf] at this
          simp at this
      | some pf =>
        rw [simulerBoucle_ok_iff]
        constructor
        · intro h j hj
          have := h j hj
          rw [show debut + ((0 : ℕ) : ℤ) + (j : ℤ) = debut + (j : ℤ) by push_cast; ring] at this
          exact this
        · intro h j hj
          rw [show debut + ((0 : ℕ) : ℤ) + (j : ℤ) = debut + (j : ℤ) by push_cast; ring]
          exact h j hj
  · intro hd
    rw [simulerDca]
    rw [hd]
  · intro hd hf
    obtain ⟨p0, hp0⟩ := Option.isSome_iff_exists.mp hd
    rw [simulerDca, hp0, hf]
  · intro j hj hd hf hm hnone
    obtain ⟨p0, hp0⟩ := Option.isSome_iff_exists.mp hd
    obtain ⟨pf, hpf⟩ := Option.isSome_iff_exists.mp hf
    rw [simulerDca, hp0, hpf]
    have := simulerBoucle_premiere_manquante series annuel frais debut n 0 j 0 0 hj ?_ ?_
    · rw [this]
      rw [show debut + ((0 : ℕ) : ℤ) + (j : ℤ) = debut + (j : ℤ) by push_cast; ring]
    · intro m hmj
      rw [show debut + ((0 : ℕ) : ℤ) + (m : ℤ) = debut + (m : ℤ) by push_cast; ring]
      exact hm m hmj
    · rw [show debut + ((0 : ℕ) : ℤ) + (j : ℤ) = debut + (j : ℤ) by push_cast; ring]
      exact hnone

/-- Witness for the amended C4 on a series covering the full range. -/
theorem simuler_dca_disponibilite_witness :
    (1 ≤ 3) ∧
    (estOk (simulerDca (fun y => if 2000 ≤ y ∧ y ≤ 2002 then some (100 : ℚ) else none)
        1000 3 2000 25) = true) :=
  ⟨by decide,
    (simuler_dca_disponibilite (fun y => if 2000 ≤ y ∧ y ≤ 2002 then some (100 : ℚ) else none)
        1000 25 2000 3 (by decide)).1.mpr (by decide)⟩

/-- Percentage of trajectories with strictly positive final profit:
monte_carlo_dca.py line 163, np.mean(profits > 0) * 100. -/
def probProfit (profits : List ℚ) : ℚ :=
  100 * ((profits.countP (fun x => decide (0 < x)) : ℕ) : ℚ) / (profits.length : ℚ)

/-- Percentage of trajectories with strictly negative final profit:
monte_carlo_dca.py line 164, np.mean(profits < 0) * 100. -/
def probPerte (profits : List ℚ) : ℚ :=
  100 * ((profits.countP (fun x => decide (x < 0)) : ℕ) : ℚ) / (profits.length : ℚ)

lemma compte_trichotomie (l : List ℚ) :
    l.countP (fun x => decide (0 < x)) + l.countP (fun x => decide (x < 0))
      + l.countP (fun x => decide (x = 0)) = l.length := by
  induction l with
  | nil => simp
  | cons a l ih =>
    rcases lt_trichotomy 0 a with h | h | h
    · rw [List.countP_cons_of_pos _ _ (by simpa using h),
        List.countP_cons_of_neg _ _ (by simpa using not_lt.mpr h.le),
        List.countP_cons_of_neg _ _ (by simpa using h.ne'), List.length_cons]
      omega
    · rw [List.countP_cons_of_neg _ _ (by simpa using not_lt.mpr h.ge),
        List.countP_cons_of_neg _ _ (by simpa using not_lt.mpr h.le),
        List.countP_cons_of_pos _ _ (by simpa using h.symm), List.length_cons]
      omega
    · rw [List.countP_cons_of_neg _ _ (by simpa using not_lt.mpr h.le),
        List.countP_cons_of_pos _ _ (by simpa using h),
        List.countP_cons_of_neg _ _ (by simpa using h.ne), List.length_cons]
      omega

/-- C8: over a nonempty profit vector, prob_profit + prob_perte never exceeds
100 percent, with equality exactly when no trajectory has a final profit of
exactly zero. -/
theorem prob_profit_plus_perte (profits : List ℚ) (hne : profits ≠ []) :
    probProfit profits + probPerte profits ≤ 100 ∧
    (probProfit profits + probPerte profits = 100 ↔ ∀ x ∈ profits, x ≠ 0) := by
  have hn : 0 < (profits.length : ℚ) := by
    have : 0 < profits.length := List.length_pos.mpr hne
    exact_mod_cast this
  have htri := compte_trichotomie profits
  have hsum : probProfit profits + probPerte profits
      = (100 * (profits.countP (fun x => decide (0 < x)) : ℚ)
          + 100 * (profits.countP (fun x => decide (x < 0)) : ℚ)) / (profits.length : ℚ) := by
    rw [probProfit, probPerte, div_add_div_same]
  constructor
  · rw [hsum, div_le_iff hn]
    have hcast : ((profits.countP (fun x => decide (0 < x)) : ℚ)
        + (profits.countP (fun x => decide (x < 0)) : ℚ)
        + (profits.countP (fun x => decide (x = 0)) : ℚ)) = (profits.length : ℚ) := by
      exact_mod_cast htri
    have hz : (0 : ℚ) ≤ (profits.countP (fun x => decide (x = 0)) : ℚ) := by positivity
    linarith
  · rw [hsum, div_eq_iff hn.ne']
    constructor
    · intro h
      have hzero : profits.countP (fun x => decide (x = 0)) = 0 := by
        have hcast : (profits.countP (fun x => decide (0 < x)) : ℚ)
            + (profits.countP (fun x => decide (x < 0)) : ℚ)
            = (profits.length : ℚ) := by linarith
        have : profits.countP (fun x => decide (0 < x))
            + profits.countP (fun x => decide (x < 0)) = profits.length := by
          exact_mod_cast hcast
        omega
      intro x hx hx0
      have := List.countP_eq_zero.mp hzero x hx
      simp [hx0] at this
    · intro h
      have hzero : profits.countP (fun x => decide (x = 0)) = 0 :=
        List.countP_eq_zero.mpr (fun x hx => by simpa using h x hx)
      rw [hzero] at htri
      have hnat : profits.countP (fun x => decide (0 < x))
          + profits.countP (fun x => decide (x < 0)) = profits.length := by omega
      have hcast : (profits.countP (fun x => decide (0 < x)) : ℚ)
          + (profits.countP (fun x => decide (x < 0)) : ℚ)
          = (profits.length : ℚ) := by
        exact_mod_cast hnat
      linarith

/-- Witness for C8 on a concrete profit vector containing a zero profit. -/
theorem prob_profit_plus_perte_witness :
    ([(3 : ℚ), -2, 0] ≠ []) ∧
    (probProfit [(3 : ℚ), -2, 0] + probPerte [(3 : ℚ), -2, 0] ≤ 100 ∧
      (probProfit [(3 : ℚ), -2, 0] + probPerte [(3 : ℚ), -2, 0] = 100
        ↔ ∀ x ∈ [(3 : ℚ), -2, 0], x ≠ 0)) :=
  ⟨by decide, prob_profit_plus_perte [(3 : ℚ), -2, 0] (by decide)⟩

/-- The fixed era table of volatility_analysis.py, analyze_periods:
name, inclusive start year, inclusive end year, in insertion order. -/
def periodes : List (String × ℤ × ℤ) :=
  [("Gold_Standard", 1833, 1971), ("Post_Bretton_Woods", 1972, 1980),
    ("Stabilization", 1981, 2000), ("Modern_Era", 2001, 2024)]

/-- Simple annual returns with their year, from a year-sorted price series:
pct_change followed by dropna keeps, for every adjacent pair, the later year
paired with (p1 - p0) / p0 (the first row, whose return is undefined, is
dropped). -/
def rendements : List (ℤ × ℚ) → List (ℤ × ℚ)
  | [] => []
  | [_] => []
  | (_, p0) :: (y1, p1) :: reste => (y1, (p1 - p0) / p0) :: rendements ((y1, p1) :: reste)

/-- Arithmetic mean, pandas Series.mean. -/
def moyenne (l : List ℚ) : ℚ := l.sum / (l.length : ℚ)

/-- Sample variance with ddof = 1, the square of pandas Series.std. -/
def varEch (l : List ℚ) : ℚ :=
  ((l.map (fun x => (x - moyenne l) ^ 2)).sum) / ((l.length : ℚ) - 1)

/-- pandas Series.std: the square root of the ddof = 1 sample variance; sq
abstracts the library square root. -/
def stdEch (sq : ℚ → ℚ) (l : List ℚ) : ℚ := sq (varEch l)

/-- The returns of the rows whose year falls in the inclusive window
[debut, fin]: the era restriction of analyze_periods. -/
def restreindre (rets : List (ℤ × ℚ)) (debut fin : ℤ) : List ℚ :=
  (rets.filter (fun yr => decide (debut ≤ yr.1) && decide (yr.1 ≤ fin))).map
    (fun yr => yr.2)

/-- volatility_analysis.py, analyze_periods: for each configured era, restrict
the (post-dropna) return rows to the era window and, when at least 2 rows
remain, record (name, mean return, std of returns); eras with fewer rows are
skipped. -/
def analyzePeriods (sq : ℚ → ℚ) (series : List (ℤ × ℚ)) : List (String × ℚ × ℚ) :=
  periodes.filterMap (fun pde =>
    if 2 ≤ (restreindre (rendements series) pde.2.1 pde.2.2).length
    then some (pde.1, moyenne (restreindre (rendements series) pde.2.1 pde.2.2),
      stdEch sq (restreindre (rendements series) pde.2.1 pde.2.2))
    else none)

/-- volatility_analysis.py, get_monte_carlo_params: (drift, volatility) for the
requested era when analyze_periods produced it, otherwise the mean and std of
the whole return series (calculate_volatility_metrics). -/
def getMonteCarloParams (sq : ℚ → ℚ) (series : List (ℤ × ℚ)) (period : String) : ℚ × ℚ :=
  match (analyzePeriods sq series).find? (fun entry => entry.1 == period) with
  | some entry => (entry.2.1, entry.2.2)
  | none =>
    (moyenne ((rendements series).map (fun yr => yr.2)),
      stdEch sq ((rendements series).map (fun yr => yr.2)))

lemma find?_filterMap_periodes_none (sq : ℚ → ℚ) (series : List (ℤ × ℚ)) (nom : String) :
    ∀ l : List (String × ℤ × ℤ), nom ∉ l.map (fun p => p.1) →
      (l.filterMap (fun pde =>
        if 2 ≤ (restreindre (rendements series) pde.2.1 pde.2.2).length
        then some (pde.1, moyenne (restreindre (rendements series) pde.2.1 pde.2.2),
          stdEch sq (restreindre (rendements series) pde.2.1 pde.2.2))
        else none)).find? (fun entry => entry.1 == nom) = none := by
  intro l
  induction l with
  | nil => intro _; rfl
  | cons q l ih =>
    intro hnom
    simp only [List.map_cons, List.mem_cons, not_or] at hnom
    rw [List.filterMap_cons]
    split_ifs with hq
    · rw [List.find?_cons_of_neg _ (by simpa using fun h => hnom.1 h.symm)]
      exact ih hnom.2
    · exact ih hnom.2

lemma find?_filterMap_periodes_mem (sq : ℚ → ℚ) (series : List (ℤ × ℚ)) :
    ∀ (l : List (String × ℤ × ℤ)) (nom : String) (d f : ℤ),
      (nom, d, f) ∈ l → (l.map (fun p => p.1)).Nodup →
      (l.filterMap (fun pde =>
        if 2 ≤ (restreindre (rendements series) pde.2.1 pde.2.2).length
        then some (pde.1, moyenne (restreindre (rendements series) pde.2.1 pde.2.2),
          stdEch sq (restreindre (rendements series) pde.2.1 pde.2.2))
        else none)).find? (fun entry => entry.1 == nom)
        = (if 2 ≤ (restreindre (rendements series) d f).length
          then some (nom, moyenne (restreindre (rendements series) d f),
            stdEch sq (restreindre (rendements series) d f))
          else none) := by
  intro l
  induction l with
  | nil => intro nom d f hmem; simp at hmem
  | cons q l ih =>
    intro nom d f hmem hnd
    simp only [List.map_cons, List.nodup_cons] at hnd
    rcases List.mem_cons.mp hmem with hq | hl
    · subst hq
      rw [List.filterMap_cons]
      split_ifs with hcond
      · rw [List.find?_cons_of_pos _ (by simp)]
      · exact find?_filterMap_periodes_none sq series nom l hnd.1
    · have hq1 : q.1 ≠ nom := by
        intro h
        apply hnd.1
        rw [h]
        exact List.mem_map.mpr ⟨(nom, d, f), hl, rfl⟩
      rw [List.filterMap_cons]
      by_cases hcond : 2 ≤ (restreindre (rendements series) q.2.1 q.2.2).length
      · rw [if_pos hcond, List.find?_cons_of_neg _ (by simpa using hq1)]
        exact ih nom d f hl hnd.2
      · rw [if_neg hcond]
        exact ih nom d f hl hnd.2

/-- C6: for a configured era whose window holds at least 2 returns, the Monte
Carlo parameters are the mean and the ddof = 1 standard deviation of the
era-restricted returns; for a configured era with fewer than 2 returns, and
for an unknown era name, the parameters silently fall back to the mean and
ddof = 1 standard deviation of the entire return series. sq abstracts the
square root shared by both sides. -/
theorem get_monte_carlo_params_spec (sq : ℚ → ℚ) (series : List (ℤ × ℚ)) (nom : String) :
    (∀ d f : ℤ, (nom, d, f) ∈ periodes →
      (2 ≤ (restreindre (rendements series) d f).length →
        getMonteCarloParams sq series nom
          = (moyenne (restreindre (rendements series) d f),
            stdEch sq (restreindre (rendements series) d f))) ∧
      ((restreindre (rendements series) d f).length < 2 →
        getMonteCarloParams sq series nom
          = (moyenne ((rendements series).map (fun yr => yr.2)),
            stdEch sq ((rendements series).map (fun yr => yr.2))))) ∧
    (nom ∉ periodes.map (fun p => p.1) →
      getMonteCarloParams sq series nom
        = (moyenne ((rendements series).map (fun yr => yr.2)),
          stdEch sq ((rendements series).map (fun yr => yr.2)))) := by
  have hnodup : (periodes.map (fun p => p.1)).Nodup := by decide
  constructor
  · intro d f hmem
    have hfind := find?_filterMap_periodes_mem sq series periodes nom d f hmem hnodup
    constructor
    · intro hlen
      rw [getMonteCarloParams, analyzePeriods, hfind, if_pos hlen]
    · intro hlen
      rw [getMonteCarloParams, analyzePeriods, hfind, if_neg (by omega)]
  · intro hnom
    rw [getMonteCarloParams, analyzePeriods,
      find?_filterMap_periodes_none sq series nom periodes hnom]

/-- Witness for C6: the Modern_Era window of a concrete three-point series
holds only 1 return, so the parameters fall back to the whole series. -/
theorem get_monte_carlo_params_spec_witness :
    (("Modern_Era", (2001 : ℤ), (2024 : ℤ)) ∈ periodes ∧
      (restreindre (rendements [((1999 : ℤ), (250 : ℚ)), (2000, 280), (2001, 300)])
        2001 2024).length < 2) ∧
    getMonteCarloParams (fun x => x) [((1999 : ℤ), (250 : ℚ)), (2000, 280), (2001, 300)]
        "Modern_Era"
      = (moyenne ((rendements [((1999 : ℤ), (250 : ℚ)), (2000, 280), (2001, 300)]).map
            (fun yr => yr.2)),
        stdEch (fun x => x)
          ((rendements [((1999 : ℤ), (250 : ℚ)), (2000, 280), (2001, 300)]).map
            (fun yr => yr.2))) :=
  ⟨⟨by decide, by decide⟩,
    ((get_monte_carlo_params_spec (fun x => x)
        [((1999 : ℤ), (250 : ℚ)), (2000, 280), (2001, 300)] "Modern_Era").1
      2001 2024 (by decide)).2 (by decide)⟩

end SimulateurDcaOr
